import Mathlib

/-!
Shallow embedding of the `files_scanner` core (src/files_scanner/src/main.rs).

Modelling conventions:
* Filesystem paths are `String`s using `/` as separator, with ordinary
  (non-`..`, non-trailing-slash) components; `lastComponent` models Rust's
  `Path::file_name().unwrap_or_default()`, `extChars` models
  `Path::extension()` (no extension when there is no `.`, or when the only
  `.` is the leading one of a hidden file name).
* Lowercasing models Rust `str::to_lowercase` on ASCII input
  (`Char.toLower` per character).
* The filesystem world is a tree (`FsTree`) whose file leaves carry the
  answer the OS would give to `fs::metadata`: `none` models a failing stat,
  `some m` carries the length and the two timestamp reads (each `Option`,
  `none` modelling an `Err` from `metadata.modified()` / `created()`;
  successful timestamps are modelled by their rfc3339 rendering).
* `rayon`'s `par_bridge().for_each` merges under one mutex per record; the
  per-scan effect is a fold of single-record merges over the discovered
  entries (insertion order is not part of any claim below, and the
  count/category invariants are proved for arbitrary entry lists, hence for
  every interleaving).
* `HashMap<String, usize>` for `Summary.categories` is modelled as an
  association list in insertion order; lookup models `HashMap::get`.
-/

namespace FilesScanner

/-- Does a Rust-style prefix test of `need` against `hay` (char lists). -/
def leadsWith : List Char → List Char → Bool
  | _, [] => true
  | [], _ :: _ => false
  | a :: as, b :: bs => a == b && leadsWith as bs

/-- `hasSub hay need` models Rust `str::contains`: `need` occurs as a
contiguous substring of `hay`. -/
def hasSub : List Char → List Char → Bool
  | [], need => need.isEmpty
  | c :: tl, need => leadsWith (c :: tl) need || hasSub tl need

/-- ASCII lowercasing, modelling `str::to_lowercase` on ASCII text. -/
def lowerStr (s : String) : String := String.mk (s.data.map Char.toLower)

/-- The part of a path after its last `/`; models
`Path::file_name().unwrap_or_default().to_string_lossy()` for paths made of
ordinary components. -/
def lastComponent (cs : List Char) : List Char :=
  cs.foldl (fun acc c => if c = '/' then [] else acc ++ [c]) []

/-- `fileName p` is the final component of path `p`. -/
def fileName (p : String) : String := String.mk (lastComponent p.data)

/-- `startsDot s` models `s.starts_with('.')`. -/
def startsDot (s : String) : Bool :=
  match s.data with
  | c :: _ => c == '.'
  | [] => false

/-- The characters after the last `.` of a char list, if any. -/
def afterLastDot : List Char → Option (List Char)
  | [] => none
  | c :: tl =>
    match afterLastDot tl with
    | some r => some r
    | none => if c = '.' then some tl else none

/-- Models Rust `Path::extension()` on a file name: `none` when the name has
no `.`, or when the name's only `.` is its leading character. -/
def extChars : List Char → Option (List Char)
  | [] => none
  | '.' :: rest => afterLastDot rest
  | c :: rest => afterLastDot (c :: rest)

/-- The lowercased extension string of a path, as computed at the top of
`is_target_file`: `path.extension().unwrap_or_default().to_string_lossy().to_lowercase()`. -/
def pathExtLower (p : String) : String :=
  String.mk (((extChars (lastComponent p.data)).getD []).map Char.toLower)

/-- Embeds `should_skip_dir` (main.rs:161-182): lowercased final component,
skip when it starts with `.`, otherwise skip when the lowercased full path
contains some excluded fragment (lowercased) as a substring. -/
def should_skip_dir (path : String) (exclude_dirs : List String) : Bool :=
  let dir_name := lowerStr (fileName path)
  if startsDot dir_name then true
  else exclude_dirs.any (fun excluded => hasSub (lowerStr path).data (lowerStr excluded).data)

/-- Embeds `is_target_file` (main.rs:184-198): case-insensitive extension
table deciding the category of a path. -/
def is_target_file (path : String) : Option String :=
  let extension := pathExtLower path
  match extension with
  | "csv" => some "csv"
  | "xlsx" | "xls" | "xlsm" | "xlsb" => some "excel"
  | "txt" | "md" | "log" | "rtf" => some "text"
  | "json" => some "json"
  | _ => none

/-- Embeds `is_hidden_entry` (main.rs:234-240): the entry's file name starts
with `.`. -/
def is_hidden_entry (path : String) : Bool := startsDot (fileName path)

/-- Embeds the `filter_entry` closure of `scan_directory` (main.rs:252-254):
`!is_hidden_entry(e) && (e.path() == dir || !should_skip_dir(e.path(), exclude_dirs))`. -/
def entryFilter (dir : String) (exclude_dirs : List String) (path : String) : Bool :=
  !(is_hidden_entry path) && (path == dir || !(should_skip_dir path exclude_dirs))

/-- The answers the OS gives for one file's metadata reads: `size` is
`metadata.len()`; `modified`/`created` are the two timestamp reads, `none`
modelling an `Err`, `some t` a succeeding read rendered to rfc3339. -/
structure Meta where
  size : Nat
  modified : Option String
  created : Option String
deriving DecidableEq, Repr

/-- Embeds `FileInfo` (main.rs:39-45). -/
structure FileInfo where
  path : String
  size : Nat
  modified : String
  created : String
deriving DecidableEq, Repr

/-- Embeds `EmailInfo` (main.rs:56-60); `folders` is always left empty by
`scan_outlook`, so only the name matters. -/
structure EmailInfo where
  name : String
deriving DecidableEq, Repr

/-- Embeds `ScanResults` (main.rs:47-54). -/
structure ScanResults where
  csv : List FileInfo
  excel : List FileInfo
  text : List FileInfo
  json : List FileInfo
  email : List EmailInfo
deriving DecidableEq, Repr

/-- Embeds `Summary` (main.rs:69-77); the `HashMap<String, usize>` of
`categories` is modelled as an association list in insertion order. -/
structure Summary where
  timestamp : String
  platform : String
  scan_dirs : List String
  file_count : Nat
  duration : Float
  categories : List (String × Nat)

/-- Embeds `OutputData` (main.rs:79-83). -/
structure OutputData where
  summary : Summary
  results : ScanResults

/-- Embeds `process_file` (main.rs:200-232). `meta` is the OS answer to
`fs::metadata(path)` (`none` = `Err`, file skipped); inside it, each
timestamp read falling to `Err` yields the literal `"unknown"`. -/
def process_file (path : String) (meta : Option Meta) : Option (String × FileInfo) :=
  match is_target_file path with
  | none => none
  | some category =>
    match meta with
    | none => none
    | some metadata =>
      let modified := match metadata.modified with
        | some time => time
        | none => "unknown"
      let created := match metadata.created with
        | some time => time
        | none => "unknown"
      some (category, { path := path, size := metadata.size, modified := modified, created := created })

mutual
/-- One node of the filesystem world: a file leaf carries the OS metadata
answer for it; a directory carries its children. -/
inductive FsTree where
  | file (name : String) (meta : Option Meta) : FsTree
  | dir (name : String) (children : FsForest) : FsTree
deriving DecidableEq
/-- A list of sibling nodes (mutual with `FsTree` so that the walk recurses
structurally). -/
inductive FsForest where
  | nil : FsForest
  | cons (head : FsTree) (tail : FsForest) : FsForest
deriving DecidableEq
end

/-- The name of a node. -/
def FsTree.name : FsTree → String
  | .file n _ => n
  | .dir n _ => n

/-- Path of a child entry under its parent directory's path. -/
def childPath (parent child : String) : String := parent ++ "/" ++ child

mutual
/-- Embeds the `WalkDir::new(dir).follow_links(false)` iterator filtered by
`filter_entry(pred)` and `filter(is_file)` (main.rs:248-256): the entry at
`path` is yielded (files) or descended into (directories) only when `pred`
holds of it; a directory failing `pred` prunes its whole subtree. -/
def walkNode (pred : String → Bool) (path : String) : FsTree → List (String × Option Meta)
  | .file _ m => if pred path then [(path, m)] else []
  | .dir _ cs => if pred path then walkForest pred path cs else []
/-- Walks each child of a directory whose path is `path`. -/
def walkForest (pred : String → Bool) (path : String) : FsForest → List (String × Option Meta)
  | .nil => []
  | .cons c rest => walkNode pred (childPath path c.name) c ++ walkForest pred path rest
end

/-- Embeds the body of the `for_each` closure in `scan_directory`
(main.rs:259-274): merge one discovered entry into the shared results and
counter under the mutex. -/
def mergeEntry (acc : ScanResults × Nat) (entry : String × Option Meta) : ScanResults × Nat :=
  match process_file entry.1 entry.2 with
  | none => acc
  | some (category, file_info) =>
    let r := acc.1
    let r := match category with
      | "csv" => { r with csv := r.csv ++ [file_info] }
      | "excel" => { r with excel := r.excel ++ [file_info] }
      | "text" => { r with text := r.text ++ [file_info] }
      | "json" => { r with json := r.json ++ [file_info] }
      | _ => r
    (r, acc.2 + 1)

/-- Embeds `scan_directory` (main.rs:242-275): walk the tree rooted at `dir`
with the entry filter, then merge every discovered file entry into the
shared state (the parallel `for_each` modelled as a fold; the claims proved
below about counts and category membership hold for arbitrary entry lists,
hence for every interleaving of the workers). -/
def scan_directory (dir : String) (exclude_dirs : List String) (tree : FsTree)
    (acc : ScanResults × Nat) : ScanResults × Nat :=
  (walkNode (entryFilter dir exclude_dirs) dir tree).foldl mergeEntry acc

/-- The empty `ScanResults` main initialises (main.rs:406-412). -/
def emptyResults : ScanResults := ⟨[], [], [], [], []⟩

/-- Embeds the `categories` map construction in `main` (main.rs:448-453). -/
def mkCategories (r : ScanResults) : List (String × Nat) :=
  [("csv", r.csv.length), ("excel", r.excel.length), ("text", r.text.length),
   ("json", r.json.length), ("email", r.email.length)]

/-- Embeds the `Summary` construction in `main` (main.rs:455-462). -/
def mkSummary (now platform : String) (scan_dirs : List String) (total_count : Nat)
    (duration : Float) (r : ScanResults) : Summary :=
  { timestamp := now, platform := platform,
    scan_dirs := scan_dirs, file_count := total_count,
    duration := duration, categories := mkCategories r }

/-- Embeds the scanning part of `main` (main.rs:406-462): fold over the
configured roots (the `par_iter().for_each` across roots modelled as a
fold), skipping a root when `fsys` has no tree for it (`dir.exists()` is
false), then install the e-mail profiles (`scan_outlook()` under
`cfg(windows)`; `emails` is that collaborator's answer, `[]` on other
platforms) and build the summary. -/
def buildOutput (scan_dirs : List String) (fsys : String → Option FsTree)
    (exclude_dirs : List String) (emails : List EmailInfo)
    (now platform : String) (duration : Float) : OutputData :=
  let scanned : ScanResults × Nat := scan_dirs.foldl
    (fun acc dir =>
      match fsys dir with
      | some tree => scan_directory dir exclude_dirs tree acc
      | none => acc)
    (emptyResults, 0)
  let results : ScanResults := { scanned.1 with email := emails }
  ⟨mkSummary now platform scan_dirs scanned.2 duration results, results⟩

/-- Embeds the tail of `main` (main.rs:464-471): `save_results` either
succeeds (`writeOk`) and `main` returns `Ok(())` having produced the output,
or fails and the error propagates out of `main`. A nonexistent scan root
never makes this fail. -/
def mainRun (scan_dirs : List String) (fsys : String → Option FsTree)
    (exclude_dirs : List String) (emails : List EmailInfo)
    (now platform : String) (duration : Float) (writeOk : Bool) :
    Except String OutputData :=
  let out := buildOutput scan_dirs fsys exclude_dirs emails now platform duration
  if writeOk then .ok out else .error "failed to save results"

/-- Classifier/storage agreement: every record stored under a category is one
the classifier assigns that category to. -/
def ResultsInv (r : ScanResults) : Prop :=
  (∀ fi ∈ r.csv, is_target_file fi.path = some "csv")
  ∧ (∀ fi ∈ r.excel, is_target_file fi.path = some "excel")
  ∧ (∀ fi ∈ r.text, is_target_file fi.path = some "text")
  ∧ (∀ fi ∈ r.json, is_target_file fi.path = some "json")

instance (r : ScanResults) : Decidable (ResultsInv r) := by
  unfold ResultsInv
  infer_instance

/-- Total length of the four file-category sequences (excludes e-mail). -/
def fileCatTotal (r : ScanResults) : Nat :=
  r.csv.length + r.excel.length + r.text.length + r.json.length

/-- The directory tree of the scenario in §8 of the spec: a root `data`
holding `a.csv`, `b.CSV`, `notes.txt`, a `cache` directory with `x.json`,
and a hidden `.git` directory with `config.json`. -/
def scenarioTree : FsTree :=
  .dir "data"
    (.cons (.file "a.csv" (some ⟨10, some "t1", some "t1"⟩))
    (.cons (.file "b.CSV" (some ⟨20, some "t2", some "t2"⟩))
    (.cons (.file "notes.txt" (some ⟨30, some "t3", some "t3"⟩))
    (.cons (.dir "cache" (.cons (.file "x.json" (some ⟨40, some "t4", some "t4"⟩)) .nil))
    (.cons (.dir ".git" (.cons (.file "config.json" (some ⟨50, some "t5", some "t5"⟩)) .nil))
    .nil)))))

/-- The filesystem world of the scenario: only the root `data` exists. -/
def scenarioFs : String → Option FsTree :=
  fun d => if d = "data" then some scenarioTree else none

/-- The output of scanning the scenario world with `cache` excluded and no
e-mail collaborator (non-Windows platform). -/
def scenarioOut : OutputData :=
  buildOutput ["data"] scenarioFs ["cache"] [] "now" "linux" 0.0

/-- The output of scanning the scenario world on a platform whose e-mail
collaborator reports one Outlook profile. -/
def winScanOut : OutputData :=
  buildOutput ["data"] scenarioFs ["cache"] [{ name := "Outlook" }] "now" "windows" 0.0

theorem toLower_dot_iff (c : Char) : Char.toLower c = '.' ↔ c = '.' := by
  constructor
  · intro h
    unfold Char.toLower at h
    simp only [] at h
    by_cases hc : c.toNat ≥ 65 ∧ c.toNat ≤ 90
    · rw [if_pos hc] at h
      exfalso
      have hv : (c.toNat + 32).isValidChar := Or.inl (by omega)
      have hval : (Char.ofNat (c.toNat + 32)).toNat = c.toNat + 32 := by
        unfold Char.ofNat
        rw [dif_pos hv]
        rfl
      rw [h] at hval
      have : ('.').toNat = 46 := by decide
      omega
    · rwa [if_neg hc] at h
  · intro h
    subst h
    decide

theorem startsDot_lowerStr (s : String) : startsDot (lowerStr s) = startsDot s := by
  unfold startsDot lowerStr
  cases s with
  | mk data =>
    cases data with
    | nil => rfl
    | cons c tl =>
      simp only [List.map]
      by_cases h : c = '.'
      · subst h
        decide
      · have hL : ¬ Char.toLower c = '.' := fun hx => h ((toLower_dot_iff c).mp hx)
        simp [h, hL]

theorem leadsWith_iff (hay need : List Char) :
    leadsWith hay need = true ↔ ∃ r, hay = need ++ r := by
  induction need generalizing hay with
  | nil => simp [leadsWith]
  | cons b bs ih =>
    cases hay with
    | nil => simp [leadsWith]
    | cons a as =>
      simp only [leadsWith, Bool.and_eq_true, beq_iff_eq, ih, List.cons_append, List.cons.injEq]
      constructor
      · rintro ⟨rfl, r, rfl⟩
        exact ⟨r, rfl, rfl⟩
      · rintro ⟨r, rfl, rfl⟩
        exact ⟨rfl, r, rfl⟩

theorem hasSub_iff (hay need : List Char) :
    hasSub hay need = true ↔ ∃ l r, hay = l ++ need ++ r := by
  induction hay with
  | nil =>
    constructor
    · intro h
      have hn : need = [] := by
        cases need with
        | nil => rfl
        | cons b bs => simp [hasSub] at h
      subst hn
      exact ⟨[], [], rfl⟩
    · rintro ⟨l, r, h⟩
      have hn : need = [] := by
        cases l <;> cases need <;> simp_all
      subst hn
      simp [hasSub]
  | cons c tl ih =>
    simp only [hasSub, Bool.or_eq_true, leadsWith_iff, ih]
    constructor
    · rintro (⟨r, hr⟩ | ⟨l, r, hr⟩)
      · exact ⟨[], r, by simpa using hr⟩
      · exact ⟨c :: l, r, by simp [hr]⟩
    · rintro ⟨l, r, h⟩
      cases l with
      | nil => exact Or.inl ⟨r, by simpa using h⟩
      | cons x xs =>
        simp only [List.cons_append, List.cons.injEq] at h
        exact Or.inr ⟨xs, r, h.2⟩

/-- C5: `should_skip_dir` decides "skip" exactly when the directory's own
name (its final path component) starts with `.`, or the lowercased full path
contains the lowercased form of some exclusion fragment as a contiguous
substring (so nested paths under a matching ancestor are also suppressed). -/
theorem claim_C5 (path : String) (exclude_dirs : List String) :
    should_skip_dir path exclude_dirs = true ↔
      (startsDot (fileName path) = true ∨
       ∃ ex ∈ exclude_dirs, ∃ l r, (lowerStr path).data = l ++ (lowerStr ex).data ++ r) := by
  simp only [should_skip_dir]
  rw [startsDot_lowerStr]
  by_cases h : startsDot (fileName path) = true
  · simp [h]
  · have h' : startsDot (fileName path) = false := by simpa using h
    rw [h']
    simp only [Bool.false_eq_true, if_false, List.any_eq_true, false_or]
    constructor
    · rintro ⟨ex, hex, hsub⟩
      exact ⟨ex, hex, (hasSub_iff _ _).mp hsub⟩
    · rintro ⟨ex, hex, hsub⟩
      exact ⟨ex, hex, (hasSub_iff _ _).mpr hsub⟩

theorem it_none (p : String)
    (h : pathExtLower p ∉ (["csv","xlsx","xls","xlsm","xlsb","txt","md","log","rtf","json"] : List String)) :
    is_target_file p = none := by
  simp only [is_target_file]
  split
  all_goals simp_all

theorem it_csv (p : String) (h : pathExtLower p = "csv") : is_target_file p = some "csv" := by
  simp only [is_target_file, h]

theorem it_excel (p : String)
    (h : pathExtLower p ∈ (["xlsx","xls","xlsm","xlsb"] : List String)) :
    is_target_file p = some "excel" := by
  simp only [List.mem_cons, List.mem_singleton, List.not_mem_nil, or_false] at h
  rcases h with h | h | h | h <;> simp only [is_target_file, h]

theorem it_text (p : String)
    (h : pathExtLower p ∈ (["txt","md","log","rtf"] : List String)) :
    is_target_file p = some "text" := by
  simp only [List.mem_cons, List.mem_singleton, List.not_mem_nil, or_false] at h
  rcases h with h | h | h | h <;> simp only [is_target_file, h]

theorem it_json (p : String) (h : pathExtLower p = "json") : is_target_file p = some "json" := by
  simp only [is_target_file, h]

theorem is_target_file_cases (p : String) (c : String) (h : is_target_file p = some c) :
    c = "csv" ∨ c = "excel" ∨ c = "text" ∨ c = "json" := by
  simp only [is_target_file] at h
  split at h
  all_goals simp_all

theorem process_file_spec (p : String) (m : Option Meta) (c : String) (fi : FileInfo)
    (h : process_file p m = some (c, fi)) : is_target_file p = some c ∧ fi.path = p := by
  unfold process_file at h
  cases hit : is_target_file p with
  | none =>
    rw [hit] at h
    simp at h
  | some cat =>
    rw [hit] at h
    cases m with
    | none => simp at h
    | some md =>
      simp only [Option.some.injEq, Prod.mk.injEq] at h
      obtain ⟨hc, hf⟩ := h
      subst hc
      exact ⟨rfl, by rw [← hf]⟩

theorem mergeEntry_count (acc : ScanResults × Nat) (e : String × Option Meta)
    (h : acc.2 = fileCatTotal acc.1) :
    (mergeEntry acc e).2 = fileCatTotal (mergeEntry acc e).1 := by
  unfold mergeEntry
  cases hpf : process_file e.1 e.2 with
  | none => simpa using h
  | some cf =>
    obtain ⟨c, fi⟩ := cf
    obtain ⟨hit, hpath⟩ := process_file_spec e.1 e.2 c fi hpf
    rcases is_target_file_cases e.1 c hit with hc | hc | hc | hc <;>
      subst hc <;> simp only [fileCatTotal, List.length_append, List.length_cons,
        List.length_nil] at h ⊢ <;> omega

theorem mergeEntry_email (acc : ScanResults × Nat) (e : String × Option Meta) :
    (mergeEntry acc e).1.email = acc.1.email := by
  unfold mergeEntry
  split
  · rfl
  · split <;> rfl

theorem foldl_mergeEntry_count (entries : List (String × Option Meta))
    (init : ScanResults × Nat) (h : init.2 = fileCatTotal init.1) :
    (entries.foldl mergeEntry init).2 = fileCatTotal (entries.foldl mergeEntry init).1 := by
  induction entries generalizing init with
  | nil => simpa using h
  | cons e tl ih => exact ih _ (mergeEntry_count init e h)

theorem scan_directory_count (dir : String) (excl : List String) (tree : FsTree)
    (init : ScanResults × Nat) (h : init.2 = fileCatTotal init.1) :
    (scan_directory dir excl tree init).2 = fileCatTotal (scan_directory dir excl tree init).1 :=
  foldl_mergeEntry_count _ _ h

theorem scanRoots_count (fsys : String → Option FsTree) (excl : List String)
    (dirs : List String) (init : ScanResults × Nat) (h : init.2 = fileCatTotal init.1) :
    (dirs.foldl (fun acc dir =>
        match fsys dir with
        | some tree => scan_directory dir excl tree acc
        | none => acc) init).2
      = fileCatTotal (dirs.foldl (fun acc dir =>
          match fsys dir with
          | some tree => scan_directory dir excl tree acc
          | none => acc) init).1 := by
  induction dirs generalizing init with
  | nil => simpa using h
  | cons d tl ih =>
    simp only [List.foldl_cons]
    apply ih
    cases hf : fsys d with
    | none => simpa using h
    | some t =>
      simp only []
      exact scan_directory_count d excl t init h

mutual
theorem walkNode_mem_pred (pred : String → Bool) (path : String) (t : FsTree)
    (p : String) (m : Option Meta) (h : (p, m) ∈ walkNode pred path t) : pred p = true := by
  cases t with
  | file n mm =>
    simp only [walkNode] at h
    split at h
    · rename_i hp
      simp only [List.mem_singleton, Prod.mk.injEq] at h
      rw [h.1]
      exact hp
    · simp at h
  | dir n cs =>
    simp only [walkNode] at h
    split at h
    · exact walkForest_mem_pred pred path cs p m h
    · simp at h
theorem walkForest_mem_pred (pred : String → Bool) (path : String) (f : FsForest)
    (p : String) (m : Option Meta) (h : (p, m) ∈ walkForest pred path f) : pred p = true := by
  cases f with
  | nil => simp [walkForest] at h
  | cons c rest =>
    simp only [walkForest, List.mem_append] at h
    rcases h with h | h
    · exact walkNode_mem_pred pred (childPath path c.name) c p m h
    · exact walkForest_mem_pred pred path rest p m h
end

theorem mergeEntry_inv (acc : ScanResults × Nat) (e : String × Option Meta)
    (h : ResultsInv acc.1) : ResultsInv (mergeEntry acc e).1 := by
  unfold mergeEntry
  cases hpf : process_file e.1 e.2 with
  | none => simpa using h
  | some cf =>
    obtain ⟨c, fi⟩ := cf
    obtain ⟨hit, hpath⟩ := process_file_spec e.1 e.2 c fi hpf
    obtain ⟨h1, h2, h3, h4⟩ := h
    rcases is_target_file_cases e.1 c hit with hc | hc | hc | hc
    · subst hc
      refine ⟨?_, h2, h3, h4⟩
      intro x hx
      rcases List.mem_append.mp hx with hm | hm
      · exact h1 x hm
      · rw [List.mem_singleton] at hm
        subst hm
        rw [hpath]
        exact hit
    · subst hc
      refine ⟨h1, ?_, h3, h4⟩
      intro x hx
      rcases List.mem_append.mp hx with hm | hm
      · exact h2 x hm
      · rw [List.mem_singleton] at hm
        subst hm
        rw [hpath]
        exact hit
    · subst hc
      refine ⟨h1, h2, ?_, h4⟩
      intro x hx
      rcases List.mem_append.mp hx with hm | hm
      · exact h3 x hm
      · rw [List.mem_singleton] at hm
        subst hm
        rw [hpath]
        exact hit
    · subst hc
      refine ⟨h1, h2, h3, ?_⟩
      intro x hx
      rcases List.mem_append.mp hx with hm | hm
      · exact h4 x hm
      · rw [List.mem_singleton] at hm
        subst hm
        rw [hpath]
        exact hit

/-- C1 (counterexample): after a completed scan of the scenario world on a
platform whose e-mail collaborator reports one Outlook profile, `file_count`
is 3 while `len(csv)+len(excel)+len(text)+len(json)+len(email)` is 4 — the
merge loop increments the counter only for classified files, never for
e-mail profiles, so the claimed equality fails. -/
theorem claim_C1_counterexample :
    winScanOut.summary.file_count = 3
    ∧ winScanOut.results.email.length = 1
    ∧ ¬(winScanOut.summary.file_count
        = winScanOut.results.csv.length + winScanOut.results.excel.length
          + winScanOut.results.text.length + winScanOut.results.json.length
          + winScanOut.results.email.length) := by
  decide

/-- C1 (amended): after every completed scan, the summary's `file_count`
equals `len(csv) + len(excel) + len(text) + len(json)` — the four file
category sequences only; e-mail profiles are never counted. -/
theorem claim_C1 (dirs : List String) (fsys : String → Option FsTree) (excl : List String)
    (emails : List EmailInfo) (now plat : String) (d : Float) :
    (buildOutput dirs fsys excl emails now plat d).summary.file_count
      = (buildOutput dirs fsys excl emails now plat d).results.csv.length
        + (buildOutput dirs fsys excl emails now plat d).results.excel.length
        + (buildOutput dirs fsys excl emails now plat d).results.text.length
        + (buildOutput dirs fsys excl emails now plat d).results.json.length := by
  have h := scanRoots_count fsys excl dirs (emptyResults, 0) rfl
  exact h

/-- C2 (counterexample): a scan root whose own name starts with `.` is not
scanned — the entry filter rejects the root itself (only the
`should_skip_dir` check is bypassed for the root, not the hidden-name
check), so the walk collects nothing. -/
theorem claim_C2_counterexample :
    startsDot (fileName ".workdir") = true
    ∧ entryFilter ".workdir" [] ".workdir" = false
    ∧ walkNode (entryFilter ".workdir" []) ".workdir"
        (.dir ".workdir" (.cons (.file "a.csv" (some ⟨1, some "t", some "t"⟩)) .nil)) = [] := by
  decide

/-- C2 (amended): every directory whose name starts with `.` is rejected by
the entry filter, including the scan root itself; the root exemption covers
only the exclusion-list check, so a root whose name does not start with `.`
passes the filter even when its path matches an exclusion rule. -/
theorem claim_C2 (dir : String) (excl : List String) (p : String) :
    (startsDot (fileName p) = true → entryFilter dir excl p = false)
    ∧ (startsDot (fileName dir) = false → entryFilter dir excl dir = true) := by
  constructor
  · intro h
    simp [entryFilter, is_hidden_entry, h]
  · intro h
    simp [entryFilter, is_hidden_entry, h]

/-- C2 witness: a hidden directory under a root is rejected; a root whose
path contains the excluded fragment `temp` still passes the filter. -/
theorem claim_C2_witness :
    entryFilter "data" [] "data/.git" = false
    ∧ entryFilter "tempdir" ["temp"] "tempdir" = true :=
  ⟨(claim_C2 "data" [] "data/.git").1 (by decide),
   (claim_C2 "tempdir" ["temp"] "tempdir").2 (by decide)⟩

/-- C3: the classifier is a pure, case-insensitive function of the path's
extension: csv maps to `csv`; xlsx/xls/xlsm/xlsb map to `excel`;
txt/md/log/rtf map to `text`; json maps to `json`; anything else (including
no extension) yields `none` — never an error. -/
theorem claim_C3 (p : String) :
    (∀ q : String, pathExtLower p = pathExtLower q → is_target_file p = is_target_file q)
    ∧ (pathExtLower p = "csv" → is_target_file p = some "csv")
    ∧ (pathExtLower p ∈ (["xlsx", "xls", "xlsm", "xlsb"] : List String)
        → is_target_file p = some "excel")
    ∧ (pathExtLower p ∈ (["txt", "md", "log", "rtf"] : List String)
        → is_target_file p = some "text")
    ∧ (pathExtLower p = "json" → is_target_file p = some "json")
    ∧ (pathExtLower p ∉
        (["csv", "xlsx", "xls", "xlsm", "xlsb", "txt", "md", "log", "rtf", "json"] : List String)
        → is_target_file p = none) := by
  refine ⟨?_, it_csv p, it_excel p, it_text p, it_json p, it_none p⟩
  intro q h
  simp only [is_target_file, h]

/-- C3 witness: an upper-case Excel extension is classified `excel`; an
unrecognized extension yields `none`. -/
theorem claim_C3_witness :
    is_target_file "report.XLSM" = some "excel" ∧ is_target_file "archive.tar.gz" = none :=
  ⟨(claim_C3 "report.XLSM").2.2.1 (by decide),
   (claim_C3 "archive.tar.gz").2.2.2.2.2 (by decide)⟩

/-- C4: after any number of merges starting from a state satisfying the
classifier/storage invariant (in particular from the empty initial state),
every `FileInfo` stored under a category is one whose path the classifier
maps to exactly that category; since the entry list is arbitrary, this holds
after every individual merge of every interleaving. -/
theorem claim_C4 (entries : List (String × Option Meta)) (init : ScanResults × Nat)
    (h : ResultsInv init.1) : ResultsInv (entries.foldl mergeEntry init).1 := by
  induction entries generalizing init with
  | nil => simpa using h
  | cons e tl ih => exact ih _ (mergeEntry_inv init e h)

/-- C4 witness: merging one discovered csv file into the empty state yields
a state in which classifier and storage agree. -/
theorem claim_C4_witness :
    ResultsInv ((([("docs/a.csv", some ⟨1, some "t", some "t"⟩)] :
      List (String × Option Meta)).foldl mergeEntry (emptyResults, 0)).1) :=
  claim_C4 _ _ (by decide)

/-- C6 (counterexample): with `temp` excluded and a root `data` that matches
no fragment, the regular file `data/report_temp.txt` is rejected by the
entry filter purely because its own name contains `temp` — the scan of the
tree collects nothing — contradicting the claim that a file is excluded only
when a directory on its path matches. -/
theorem claim_C6_counterexample :
    should_skip_dir "data" ["temp"] = false
    ∧ entryFilter "data" ["temp"] "data/report_temp.txt" = false
    ∧ scan_directory "data" ["temp"]
        (.dir "data" (.cons (.file "report_temp.txt" (some ⟨5, some "t", some "t"⟩)) .nil))
        (emptyResults, 0) = (emptyResults, 0) := by
  decide

/-- C6 (amended): exclusion matching is applied to the full path of every
entry, files included: any non-root entry whose path `should_skip_dir` flags
is rejected by the entry filter (even when no ancestor directory matches);
consequently every entry the traversal yields is either the root or has a
path matching no exclusion rule. -/
theorem claim_C6 :
    (∀ (dir : String) (excl : List String) (p : String),
        p ≠ dir → should_skip_dir p excl = true → entryFilter dir excl p = false)
    ∧ (∀ (dir : String) (excl : List String) (tree : FsTree) (p : String) (m : Option Meta),
        (p, m) ∈ walkNode (entryFilter dir excl) dir tree →
          p = dir ∨ should_skip_dir p excl = false) := by
  constructor
  · intro dir excl p hne hskip
    simp [entryFilter, hskip, hne]
  · intro dir excl tree p m hmem
    have hp := walkNode_mem_pred _ _ _ _ _ hmem
    simp only [entryFilter, Bool.and_eq_true, Bool.or_eq_true, beq_iff_eq,
      Bool.not_eq_true'] at hp
    rcases hp.2 with h | h
    · exact Or.inl h
    · exact Or.inr (by simpa using h)

/-- C6 witness: a file whose own name contains the excluded fragment `temp`
is rejected although its parent directory matches nothing. -/
theorem claim_C6_witness :
    entryFilter "data" ["temp"] "data/sales_temp.csv" = false :=
  claim_C6.1 "data" ["temp"] "data/sales_temp.csv" (by decide) (by decide)

/-- C7: for a path with a recognized extension, a failing basic-metadata
read makes `process_file` return `none` (the file is skipped entirely),
while a succeeding one always produces the record with the stat size and the
path, each timestamp field falling back to the literal `"unknown"` exactly
when that timestamp read failed. -/
theorem claim_C7 (p c : String) (m : Meta) (hc : is_target_file p = some c) :
    process_file p none = none
    ∧ process_file p (some m)
        = some (c, { path := p, size := m.size,
                     modified := m.modified.getD "unknown",
                     created := m.created.getD "unknown" }) := by
  constructor
  · unfold process_file
    cases is_target_file p <;> rfl
  · unfold process_file
    rw [hc]
    obtain ⟨sz, mo, cr⟩ := m
    cases mo <;> cases cr <;> rfl

/-- C7 witness: for `docs/a.csv` with a failing modified-time read, the
record is still produced with size, path and `modified = "unknown"`; with a
failing stat, the file is skipped. -/
theorem claim_C7_witness :
    process_file "docs/a.csv" none = none
    ∧ process_file "docs/a.csv" (some ⟨7, none, some "2024-01-01T00:00:00Z"⟩)
        = some ("csv", ⟨"docs/a.csv", 7, "unknown", "2024-01-01T00:00:00Z"⟩) :=
  ⟨(claim_C7 "docs/a.csv" "csv" ⟨7, none, some "2024-01-01T00:00:00Z"⟩ (by decide)).1,
   (claim_C7 "docs/a.csv" "csv" ⟨7, none, some "2024-01-01T00:00:00Z"⟩ (by decide)).2⟩

/-- C8: a configured root that does not exist in the filesystem world is
skipped before any traversal: it contributes nothing to the results or the
file count (the scan of the remaining roots is unchanged), and the run still
finishes successfully when the output can be written. -/
theorem claim_C8 (pre post : List String) (r : String) (fsys : String → Option FsTree)
    (excl : List String) (emails : List EmailInfo) (now plat : String) (d : Float)
    (hr : fsys r = none) :
    ((buildOutput (pre ++ r :: post) fsys excl emails now plat d).results
      = (buildOutput (pre ++ post) fsys excl emails now plat d).results)
    ∧ ((buildOutput (pre ++ r :: post) fsys excl emails now plat d).summary.file_count
      = (buildOutput (pre ++ post) fsys excl emails now plat d).summary.file_count)
    ∧ (mainRun (pre ++ r :: post) fsys excl emails now plat d true).isOk = true := by
  have key : ((pre ++ r :: post).foldl
      (fun acc dir =>
        match fsys dir with
        | some tree => scan_directory dir excl tree acc
        | none => acc) (emptyResults, 0))
      = ((pre ++ post).foldl
      (fun acc dir =>
        match fsys dir with
        | some tree => scan_directory dir excl tree acc
        | none => acc) (emptyResults, 0)) := by
    rw [List.foldl_append, List.foldl_append, List.foldl_cons]
    simp only [hr]
  refine ⟨?_, ?_, rfl⟩
  · simp only [buildOutput]
    rw [key]
  · simp only [buildOutput, mkSummary]
    rw [key]

/-- C8 witness: adding the nonexistent root `ghost` to the scenario scan
changes neither the results nor the file count, and the run reports
success. -/
theorem claim_C8_witness :
    ((buildOutput (["data"] ++ "ghost" :: []) scenarioFs ["cache"] [] "now" "linux" 0.0).results
      = (buildOutput (["data"] ++ []) scenarioFs ["cache"] [] "now" "linux" 0.0).results)
    ∧ ((buildOutput (["data"] ++ "ghost" :: []) scenarioFs ["cache"] [] "now" "linux"
          0.0).summary.file_count
      = (buildOutput (["data"] ++ []) scenarioFs ["cache"] [] "now" "linux"
          0.0).summary.file_count)
    ∧ (mainRun (["data"] ++ "ghost" :: []) scenarioFs ["cache"] [] "now" "linux" 0.0
        true).isOk = true :=
  claim_C8 ["data"] [] "ghost" scenarioFs ["cache"] [] "now" "linux" 0.0 (by decide)

/-- C9: scanning the scenario root (`a.csv`, `b.CSV`, `notes.txt`,
`cache/x.json` with `cache` excluded, and hidden `.git/config.json`) yields
csv = 2 entries (`a.csv` and `b.CSV`, matched case-insensitively), text = 1
entry (`notes.txt`), json = 0 entries, and `file_count = 3`. -/
theorem claim_C9 :
    scenarioOut.results.csv.map FileInfo.path = ["data/a.csv", "data/b.CSV"]
    ∧ scenarioOut.results.csv.length = 2
    ∧ scenarioOut.results.text.map FileInfo.path = ["data/notes.txt"]
    ∧ scenarioOut.results.text.length = 1
    ∧ scenarioOut.results.json.length = 0
    ∧ scenarioOut.summary.file_count = 3 := by
  decide

/-- C10: after every completed scan, the summary's categories mapping has
exactly the five keys csv, excel, text, json, email, in that insertion
order — each present even when its count is zero — and each key maps to the
length of the corresponding results sequence at summary time. -/
theorem claim_C10 (dirs : List String) (fsys : String → Option FsTree) (excl : List String)
    (emails : List EmailInfo) (now plat : String) (d : Float) :
    ((buildOutput dirs fsys excl emails now plat d).summary.categories.map Prod.fst
      = ["csv", "excel", "text", "json", "email"])
    ∧ (buildOutput dirs fsys excl emails now plat d).summary.categories.lookup "csv"
      = some (buildOutput dirs fsys excl emails now plat d).results.csv.length
    ∧ (buildOutput dirs fsys excl emails now plat d).summary.categories.lookup "excel"
      = some (buildOutput dirs fsys excl emails now plat d).results.excel.length
    ∧ (buildOutput dirs fsys excl emails now plat d).summary.categories.lookup "text"
      = some (buildOutput dirs fsys excl emails now plat d).results.text.length
    ∧ (buildOutput dirs fsys excl emails now plat d).summary.categories.lookup "json"
      = some (buildOutput dirs fsys excl emails now plat d).results.json.length
    ∧ (buildOutput dirs fsys excl emails now plat d).summary.categories.lookup "email"
      = some (buildOutput dirs fsys excl emails now plat d).results.email.length :=
  ⟨rfl, rfl, rfl, rfl, rfl, rfl⟩

end FilesScanner
